import Mathlib

/-!
Shallow embedding of the browser audio playlist player in `src/player.js`
(a Howler.js-based player: a fixed playlist, one lazily created playback
handle per track, a current index, and transport operations bound to UI
events).

Modelling conventions:
* The external Howler `Howl` object is modelled by the `Howl` structure
  below, recording only what the player observes or commands: a playback
  status, a loaded flag, a seek position and a duration.
* JavaScript numbers are modelled by `ℚ` (positions, durations, volume,
  pixel widths) and `Nat` (indices, whole seconds).
* Calls into the external library are recorded in an action trace
  (`Act`), so ordering claims ("stop before play") are statable.
* A method that would throw a `TypeError` in JavaScript (e.g. touching a
  `null` handle) performs no state change there; we model it as the
  identity on the state with an empty trace, which is exactly the
  observable effect of the thrown exception on the player state.
* Division by zero on `ℚ` yields `0`, which coincides with the
  `(... ) || 0` guard the source puts around the progress ratio.
-/

namespace NeudawnPlayer

/-- Playback status of a handle as driven by the commands of the player:
`playing` covers both audible playback and a handle that is still
loading but has had `play()` requested (the "playing-or-loading"
state of the spec). -/
inductive HStatus
  | stopped
  | paused
  | playing
  deriving DecidableEq, Repr

/-- Model of a Howler `Howl` object as the player observes it.
`loaded` mirrors `state() === "loaded"`, `pos` is the current seek
position (`none` when unavailable, read back with a `|| 0` default),
`dur` the reported duration (`0` until known). -/
structure Howl where
  status : HStatus
  loaded : Bool
  pos : Option ℚ
  dur : ℚ
  deriving DecidableEq, Repr

/-- Effect of `sound.play()` on the handle. -/
def Howl.doPlay (h : Howl) : Howl := { h with status := .playing }

/-- Effect of `sound.stop()` on the handle. -/
def Howl.doStop (h : Howl) : Howl := { h with status := .stopped }

/-- Effect of `sound.pause()` on the handle. -/
def Howl.doPause (h : Howl) : Howl := { h with status := .paused }

/-- `sound.playing()`. -/
def Howl.isPlaying (h : Howl) : Bool := h.status == .playing

/-- A freshly constructed `Howl` (src/player.js:60-101): not yet
loaded, no position, duration unknown, nothing requested yet. -/
def newHowl : Howl := { status := .stopped, loaded := false, pos := none, dur := 0 }

/-- One playlist entry (fields `title`, `number`, `model`, `designer`,
`artist`, `note`, `file`, `howl`; src/player.js:287-296): static
metadata plus the lazily attached playback handle. -/
structure Track where
  title : String
  number : String
  model : String
  designer : String
  artist : String
  note : String
  file : String
  howl : Option Howl
  deriving DecidableEq, Repr

/-- Player state: the playlist (whose entries mutate only in their
`howl` field), the current index, and the provider-scope output volume
set through `Howler.volume`. -/
structure PState where
  playlist : List Track
  index : Nat
  globalVol : ℚ
  deriving DecidableEq, Repr

/-- Commands the player issues to the external audio library, in order. -/
inductive Act
  | howlPlay (i : Nat)
  | howlStop (i : Nat)
  | howlPause (i : Nat)
  | howlSeek (i : Nat) (pos : ℚ)
  | howlerVolume (v : ℚ)
  deriving DecidableEq, Repr

/-- The handle stored at playlist slot `i`, if the slot exists and the
handle was created. -/
def howlAt (s : PState) (i : Nat) : Option Howl :=
  match s.playlist[i]? with
  | some t => t.howl
  | none => none

/-- `Player.prototype.formatTime` (src/player.js:277-282):
`minutes = Math.floor(secs / 60)`, `seconds = secs - minutes * 60`,
rendered as `minutes + ":" + (seconds < 10 ? "0" : "") + seconds`. -/
def formatTime (secs : Nat) : String :=
  let minutes := secs / 60
  let seconds := secs - minutes * 60
  toString minutes ++ ":" ++ (if seconds < 10 then "0" else "") ++ toString seconds

/-- Spec-side formulation for comparison: the seconds remainder
zero-padded to two digits. -/
def pad2 (k : Nat) : String :=
  if k < 10 then "0" ++ toString k else toString k

/-- `Math.round` for the non-negative positions the player feeds to
`formatTime`. -/
def jsRound (q : ℚ) : Nat := ⌊q + 1 / 2⌋.toNat

/-- `Player.prototype.play` (src/player.js:48-132).
`index = typeof index === "number" ? index : self.index`; reuse
`data.howl` if present, otherwise construct a new `Howl`; call
`sound.play()`; finally `self.index = index`. An out-of-range index
makes the JavaScript throw on `data.howl` before any mutation. -/
def play (s : PState) (idx : Option Nat) : PState × List Act :=
  let index := match idx with | some n => n | none => s.index
  match s.playlist[index]? with
  | none => (s, [])
  | some data =>
    let sound :=
      match data.howl with
      | some h => h
      | none => newHowl
    ({ s with
        playlist := s.playlist.set index { data with howl := some sound.doPlay },
        index := index },
     [Act.howlPlay index])

/-- `Player.prototype.pause` (src/player.js:137-149): pauses the handle
at the current index (`sound.pause()` on a `null` handle throws,
changing nothing). -/
def pause (s : PState) : PState × List Act :=
  match s.playlist[s.index]? with
  | none => (s, [])
  | some data =>
    match data.howl with
    | none => (s, [])
    | some h =>
      ({ s with playlist := s.playlist.set s.index { data with howl := some h.doPause } },
       [Act.howlPause s.index])

/-- Target-index computation of `Player.prototype.skip`
(src/player.js:155-170): decrement with wrap to `length - 1` when the
direction is exactly `"prev"`, otherwise increment with wrap to `0`. -/
def skipTarget (s : PState) (direction : String) : Nat :=
  if direction = "prev" then
    if s.index = 0 then s.playlist.length - 1 else s.index - 1
  else
    if s.index + 1 ≥ s.playlist.length then 0 else s.index + 1

/-- `Player.prototype.skipTo` (src/player.js:179-192): stop the handle
at the current index if it exists, reset the progress display, then
`play(index)`. -/
def skipTo (s : PState) (index : Nat) : PState × List Act :=
  match s.playlist[s.index]? with
  | none => play s (some index)
  | some data =>
    match data.howl with
    | some h =>
      let s1 := { s with playlist := s.playlist.set s.index { data with howl := some h.doStop } }
      let r := play s1 (some index)
      (r.1, Act.howlStop s.index :: r.2)
    | none => play s (some index)

/-- `Player.prototype.skip` (src/player.js:155-173): compute the target
with wraparound, delegate to `skipTo`. -/
def skip (s : PState) (direction : String) : PState × List Act :=
  skipTo s (skipTarget s direction)

/-- `Player.prototype.seek` (src/player.js:214-224): only when the
current handle reports playing, `sound.seek(sound.duration() * per)`.
A `null` handle makes `sound.playing()` throw, changing nothing. -/
def seek (s : PState) (per : ℚ) : PState × List Act :=
  match s.playlist[s.index]? with
  | none => (s, [])
  | some data =>
    match data.howl with
    | none => (s, [])
    | some h =>
      if h.isPlaying then
        ({ s with
            playlist := s.playlist.set s.index
              { data with howl := some { h with pos := some (h.dur * per) } } },
         [Act.howlSeek s.index (h.dur * per)])
      else (s, [])

/-- State effect of `Player.prototype.volume` (src/player.js:198-208):
`Howler.volume(val)` sets the provider-scope output volume. -/
def volume (s : PState) (val : ℚ) : PState × List Act :=
  ({ s with globalVol := val }, [Act.howlerVolume val])

/-- `barWidth = (val * 90) / 100` (src/player.js:205). -/
def volumeBarWidth (val : ℚ) : ℚ := (val * 90) / 100

/-- `barFull.style.width = (barWidth * 100) + "%"` (src/player.js:206). -/
def volumeBarFullPercent (val : ℚ) : ℚ := volumeBarWidth val * 100

/-- `sliderBtn.style.left = (window.innerWidth * barWidth +
window.innerWidth * 0.05 - 25) + "px"` (src/player.js:207). -/
def volumeSliderLeft (val innerWidth : ℚ) : ℚ :=
  innerWidth * volumeBarWidth val + innerWidth * (5 / 100) - 25

/-- Display outputs of one run of `step`. -/
structure StepOut where
  timerText : String
  progressPercent : ℚ
  reschedule : Bool
  deriving DecidableEq, Repr

/-- `Player.prototype.step` (src/player.js:229-244), given the handle at
the current index (a missing handle throws on `sound.seek()`):
`seek = sound.seek() || 0`; timer shows
`formatTime(Math.round(seek))`; progress width is
`((seek / sound.duration()) * 100) || 0` percent (division by zero
yields `0` here exactly as the `|| 0` guard does for `NaN`); another
frame is requested if and only if `sound.playing()`. -/
def step (h : Howl) : StepOut :=
  let seekv := h.pos.getD 0
  { timerText := formatTime (jsRound seekv)
    progressPercent := seekv / h.dur * 100
    reschedule := h.isPlaying }

/-- The `onload` callback firing for the handle at slot `i`: the load
completes, `state()` becomes `"loaded"` and the duration `d` becomes
available. No playback-status change. -/
def markLoaded (s : PState) (i : Nat) (d : ℚ) : PState :=
  match s.playlist[i]? with
  | none => s
  | some t =>
    match t.howl with
    | none => s
    | some h =>
      { s with playlist := s.playlist.set i { t with howl := some { h with loaded := true, dur := d } } }

/-- The `onend` callback (src/player.js:81-86): playback of the handle
at slot `i` finishes (only a playing handle can end), after which the
callback runs `self.skip("next")`. -/
def endAt (s : PState) (i : Nat) : PState × List Act :=
  match s.playlist[i]? with
  | none => (s, [])
  | some t =>
    match t.howl with
    | none => (s, [])
    | some h =>
      if h.isPlaying then
        skip { s with playlist := s.playlist.set i { t with howl := some h.doStop } } "next"
      else (s, [])

/-- The events that can reach the player: the bound UI controls
(src/player.js:490-547) and the external-library callbacks that change
player-visible state or re-enter the player. -/
inductive Ev
  | pressPlay
  | pressPause
  | pressNext
  | pressPrev
  | clickSong (i : Nat)
  | setVolume (v : ℚ)
  | dragSeek (p : ℚ)
  | howlLoaded (i : Nat) (d : ℚ)
  | howlEnded (i : Nat)
  deriving DecidableEq, Repr

/-- Dispatch an event to the operation it is bound to. -/
def applyEv (s : PState) (e : Ev) : PState :=
  match e with
  | .pressPlay => (play s none).1
  | .pressPause => (pause s).1
  | .pressNext => (skip s "next").1
  | .pressPrev => (skip s "prev").1
  | .clickSong i => (skipTo s i).1
  | .setVolume v => (volume s v).1
  | .dragSeek p => (seek s p).1
  | .howlLoaded i d => markLoaded s i d
  | .howlEnded i => (endAt s i).1

/-- A playlist-entry click passes `playlist.indexOf(song)`, always a
valid index (src/player.js:37-39); other events carry no constraint. -/
def evValid (s : PState) (e : Ev) : Prop :=
  match e with
  | .clickSong i => i < s.playlist.length
  | _ => True

/-- The startup state (src/player.js:22-24): the given playlist,
`index = 0`, and the Howler default global volume `1`. -/
def initState (pl : List Track) : PState :=
  { playlist := pl, index := 0, globalVol := 1 }

/-- States reachable from startup. The constructor records what is true
of the static playlist the page ships: it is nonempty and every entry
starts with `howl: null`. -/
inductive Reachable (pl : List Track) : PState → Prop
  | init (hne : 0 < pl.length) (hclean : ∀ t ∈ pl, t.howl = none) :
      Reachable pl (initState pl)
  | next (s : PState) (e : Ev) (hv : evValid s e) :
      Reachable pl s → Reachable pl (applyEv s e)

/-- Every existing handle away from the current index is stopped. -/
def othersStopped (s : PState) : Prop :=
  ∀ i h, i ≠ s.index → howlAt s i = some h → h.status = HStatus.stopped

/-- The state invariant of the player: a valid current index and no active
handle off the current index. -/
def Inv (s : PState) : Prop :=
  s.index < s.playlist.length ∧ othersStopped s

/-- Shorthand for one playlist entry of the static data
(src/player.js:286-487), `howl: null`. -/
def mkTrack (title number model designer artist note file : String) : Track :=
  { title := title, number := number, model := model, designer := designer,
    artist := artist, note := note, file := file, howl := none }

/-- The static 20-entry playlist the page constructs the player with
(src/player.js:286-487). -/
def neudawnPlaylist : List Track :=
  [ mkTrack "I" "1" "Abby Yankle" "Julia Liller" "Jessica Maples" "" "01 - ND13",
    mkTrack "II" "2" "Jalisa Ambrose" "A.J. Tompkins" "Conz8000" "" "02 - ND18",
    mkTrack "III" "3" "N/A" "Miranda Pixley" "Molly Holmes"
      "This installation is blank due to life changes for both artist and costumer to where they did not have freedom to create."
      "03 - ND08",
    mkTrack "IV" "4" "Ellis Jayne" "Sunè Van Rooyen Phillips" "Sunè Van Rooyen Phillips" "" "04 - ND04",
    mkTrack "V" "5" "Rachel Stringfellow" "Rachel Stringfellow" "Rachel Stringfellow" "" "05 - ND03",
    mkTrack "VI" "6" "Lillian McKinney" "Lillian McKinney" "Lucy Gafford" "" "06 - ND07",
    mkTrack "VII" "7" "Nicole Decker" "Sarah Bohnenstiehl" "Dena Kollins" "" "07 - ND02",
    mkTrack "VIII" "8" "Laura Scott" "Courtney Matthews" "Ryan Jetten" "" "08 - ND09",
    mkTrack "IX" "9" "Reginald Davis" "Antionette Warbington" ""
      "Sol Davis could not be in the show due to work." "09 - ND16",
    mkTrack "X" "10" "April Patrick" "April Patrick" "Artist Name" "" "10 - ND06",
    mkTrack "XI" "11" "April Livingston" "April Livingston" "Amanada Youngblood" "" "11 - ND10",
    mkTrack "XII" "12" "Stallworth" "Stallworth" "Brandin Stallworth" "" "12 - ND11",
    mkTrack "XIII" "13" "Suzette Callahan" "Suzette Callahan" "Randy Jennings" "" "13 - ND19",
    mkTrack "XIV" "14" "Marnèe Wiley" "Valerie Iliff" "Chris Murray" "" "14 - ND05",
    mkTrack "XV" "15" "Larrah Craig" "Laura Compton" "Marnèe Wiley" "" "15 - ND17",
    mkTrack "XVI" "16" "McKenzie Wallace" "Jessica Price" "Mateo" "" "16 - ND01",
    mkTrack "XVII" "17" "Emily Howat" "Richard McGill-Hamilton" "Taylor Shaw" "" "17 - ND05",
    mkTrack "XVIII" "18" "Debbie Richards" "Debbie Richards" "Katrina Breland" "" "18 - ND15",
    mkTrack "XIX" "19" "Sarah Hoeb" "Sara Thompson" "Sarah Gelsinger Brewer" "" "19 - ND17",
    mkTrack "XX" "20" "Jessica Price" "Jessica Price" "Jessica Price" "" "20 - ND12" ]

/-! ### Basic lemmas about the embedding -/

lemma howlAt_eq (s : PState) (i : Nat) : howlAt s i = s.playlist[i]?.bind Track.howl := by
  cases h : s.playlist[i]? <;> simp [howlAt, h]

lemma howlAt_mk (pl : List Track) (j : Nat) (v : ℚ) (i : Nat) :
    howlAt { playlist := pl, index := j, globalVol := v } i = pl[i]?.bind Track.howl :=
  howlAt_eq _ _

lemma status_getD_doPlay (o : Option Howl) : ((o.getD newHowl).doPlay).status = HStatus.playing := by
  cases o <;> rfl

lemma play_none_eq (s : PState) : play s none = play s (some s.index) := rfl

lemma play_eq (s : PState) (i : Nat) (data : Track) (hd : s.playlist[i]? = some data) :
    play s (some i) =
      ({ s with
          playlist := s.playlist.set i { data with howl := some (data.howl.getD newHowl).doPlay },
          index := i },
       [Act.howlPlay i]) := by
  cases hh : data.howl <;> simp [play, hd, hh]

lemma play_oob (s : PState) (i : Nat) (hd : s.playlist[i]? = none) :
    play s (some i) = (s, []) := by
  simp [play, hd]

lemma play_len (s : PState) (o : Option Nat) :
    (play s o).1.playlist.length = s.playlist.length := by
  set i := match o with | some n => n | none => s.index with hi
  have : play s o = play s (some i) := by cases o <;> rfl
  rw [this]
  cases hd : s.playlist[i]? with
  | none => rw [play_oob s i hd]
  | some data => rw [play_eq s i data hd]; simp

lemma play_index (s : PState) (i : Nat) (data : Track) (hd : s.playlist[i]? = some data) :
    (play s (some i)).1.index = i := by
  rw [play_eq s i data hd]

lemma howlAt_play_self (s : PState) (i : Nat) (data : Track) (hd : s.playlist[i]? = some data) :
    howlAt (play s (some i)).1 i = some (data.howl.getD newHowl).doPlay := by
  have hlt : i < s.playlist.length := (List.getElem?_eq_some.mp hd).1
  rw [play_eq s i data hd, howlAt_eq]
  simp [List.getElem?_set_eq_of_lt _ hlt]

lemma howlAt_play_other (s : PState) (i j : Nat) (hne : j ≠ i) :
    howlAt (play s (some i)).1 j = howlAt s j := by
  cases hd : s.playlist[i]? with
  | none => rw [play_oob s i hd]
  | some data =>
    rw [play_eq s i data hd, howlAt_eq, howlAt_eq]
    simp [List.getElem?_set_ne (Ne.symm hne)]

lemma pause_eq (s : PState) (data : Track) (h : Howl)
    (hd : s.playlist[s.index]? = some data) (hh : data.howl = some h) :
    pause s =
      ({ s with playlist := s.playlist.set s.index { data with howl := some h.doPause } },
       [Act.howlPause s.index]) := by
  simp [pause, hd, hh]

lemma pause_id_of_no_howl (s : PState) (data : Track)
    (hd : s.playlist[s.index]? = some data) (hh : data.howl = none) :
    pause s = (s, []) := by
  simp [pause, hd, hh]

lemma pause_id_oob (s : PState) (hd : s.playlist[s.index]? = none) :
    pause s = (s, []) := by
  simp [pause, hd]

lemma skipTo_eq_stop (s : PState) (i : Nat) (data : Track) (h : Howl)
    (hd : s.playlist[s.index]? = some data) (hh : data.howl = some h) :
    skipTo s i =
      ((play { s with
          playlist := s.playlist.set s.index { data with howl := some h.doStop } } (some i)).1,
       Act.howlStop s.index ::
         (play { s with
            playlist := s.playlist.set s.index { data with howl := some h.doStop } } (some i)).2) := by
  simp [skipTo, hd, hh]

lemma skipTo_eq_no_howl (s : PState) (i : Nat) (data : Track)
    (hd : s.playlist[s.index]? = some data) (hh : data.howl = none) :
    skipTo s i = play s (some i) := by
  simp [skipTo, hd, hh]

lemma skipTarget_lt (s : PState) (d : String) (hidx : s.index < s.playlist.length) :
    skipTarget s d < s.playlist.length := by
  have hpos : 0 < s.playlist.length := Nat.lt_of_le_of_lt (Nat.zero_le _) hidx
  unfold skipTarget
  split
  · split
    · omega
    · omega
  · split
    · omega
    · omega

lemma skipTo_post (s : PState) (i : Nat)
    (hidx : s.index < s.playlist.length) (hos : othersStopped s)
    (hi : i < s.playlist.length) :
    (skipTo s i).1.index = i ∧
    (skipTo s i).1.playlist.length = s.playlist.length ∧
    (∃ hw, howlAt (skipTo s i).1 i = some hw ∧ hw.status = HStatus.playing) ∧
    (∀ j hw, j ≠ i → howlAt (skipTo s i).1 j = some hw → hw.status = HStatus.stopped) ∧
    (howlAt s s.index = none → (skipTo s i).2 = [Act.howlPlay i]) ∧
    (∀ h0, howlAt s s.index = some h0 →
      (skipTo s i).2 = [Act.howlStop s.index, Act.howlPlay i]) := by
  obtain ⟨data, hd⟩ : ∃ data, s.playlist[s.index]? = some data :=
    ⟨_, List.getElem?_eq_getElem hidx⟩
  have hcur : howlAt s s.index = data.howl := by rw [howlAt_eq, hd]; rfl
  cases hh : data.howl with
  | none =>
    rw [skipTo_eq_no_howl s i data hd hh]
    obtain ⟨di, hdi⟩ : ∃ di, s.playlist[i]? = some di := ⟨_, List.getElem?_eq_getElem hi⟩
    refine ⟨play_index s i di hdi, play_len s _,
      ⟨_, howlAt_play_self s i di hdi, status_getD_doPlay _⟩, ?_, ?_, ?_⟩
    · intro j hw hne hsome
      rw [howlAt_play_other s i j hne] at hsome
      by_cases hj : j = s.index
      · rw [hj, hcur, hh] at hsome; cases hsome
      · exact hos j hw hj hsome
    · intro _
      rw [play_eq s i di hdi]
    · intro h0 hsome
      rw [hcur, hh] at hsome; cases hsome
  | some h =>
    rw [skipTo_eq_stop s i data h hd hh]
    have hA : ∀ j, howlAt
        { s with playlist := s.playlist.set s.index { data with howl := some h.doStop } } j =
        if j = s.index then some h.doStop else howlAt s j := by
      intro j
      by_cases hj : j = s.index
      · subst hj
        rw [howlAt_eq]
        simp [List.getElem?_set_eq_of_lt _ hidx]
      · rw [howlAt_eq, howlAt_eq]
        simp [List.getElem?_set_ne (Ne.symm hj), hj]
    have hlen1 : ({ s with
        playlist := s.playlist.set s.index { data with howl := some h.doStop } } :
          PState).playlist.length = s.playlist.length := by
      simp
    obtain ⟨di, hdi⟩ : ∃ di,
        ({ s with
          playlist := s.playlist.set s.index { data with howl := some h.doStop } } :
            PState).playlist[i]? = some di :=
      ⟨_, List.getElem?_eq_getElem (by rw [hlen1]; exact hi)⟩
    refine ⟨play_index _ i di hdi, by rw [play_len, hlen1],
      ⟨_, howlAt_play_self _ i di hdi, status_getD_doPlay _⟩, ?_, ?_, ?_⟩
    · intro j hw hne hsome
      rw [howlAt_play_other _ i j hne, hA j] at hsome
      by_cases hj : j = s.index
      · rw [if_pos hj] at hsome
        cases hsome
        rfl
      · rw [if_neg hj] at hsome
        exact hos j hw hj hsome
    · intro habs
      rw [hcur, hh] at habs; cases habs
    · intro h0 _
      rw [play_eq _ i di hdi]

lemma seek_eq_play (s : PState) (per : ℚ) (data : Track) (h : Howl)
    (hd : s.playlist[s.index]? = some data) (hh : data.howl = some h)
    (hp : h.isPlaying = true) :
    seek s per =
      ({ s with
          playlist := s.playlist.set s.index
            { data with howl := some { h with pos := some (h.dur * per) } } },
       [Act.howlSeek s.index (h.dur * per)]) := by
  simp [seek, hd, hh, hp]

lemma seek_id_not_playing (s : PState) (per : ℚ) (data : Track) (h : Howl)
    (hd : s.playlist[s.index]? = some data) (hh : data.howl = some h)
    (hp : h.isPlaying = false) :
    seek s per = (s, []) := by
  simp [seek, hd, hh, hp]

lemma seek_id_no_howl (s : PState) (per : ℚ) (data : Track)
    (hd : s.playlist[s.index]? = some data) (hh : data.howl = none) :
    seek s per = (s, []) := by
  simp [seek, hd, hh]

lemma seek_id_oob (s : PState) (per : ℚ) (hd : s.playlist[s.index]? = none) :
    seek s per = (s, []) := by
  simp [seek, hd]

lemma volume_eq (s : PState) (v : ℚ) :
    volume s v = ({ s with globalVol := v }, [Act.howlerVolume v]) := rfl

lemma inv_set_current (s : PState) (t' : Track) (hInv : Inv s) :
    Inv { s with playlist := s.playlist.set s.index t' } := by
  obtain ⟨hidx, hos⟩ := hInv
  refine ⟨by simpa using hidx, ?_⟩
  intro j hw hj hsome
  rw [howlAt_eq] at hsome
  rw [List.getElem?_set_ne (Ne.symm hj)] at hsome
  exact hos j hw hj (by rw [howlAt_eq]; exact hsome)

lemma inv_skipTo (s : PState) (i : Nat) (hInv : Inv s) (hi : i < s.playlist.length) :
    Inv (skipTo s i).1 := by
  have post := skipTo_post s i hInv.1 hInv.2 hi
  constructor
  · rw [post.1, post.2.1]; exact hi
  · intro j hw hj hsome
    exact post.2.2.2.1 j hw (by rw [post.1] at hj; exact hj) hsome

lemma inv_skip (s : PState) (d : String) (hInv : Inv s) : Inv (skip s d).1 := by
  unfold skip
  exact inv_skipTo s _ hInv (skipTarget_lt s d hInv.1)

lemma inv_play_current (s : PState) (hInv : Inv s) : Inv (play s none).1 := by
  obtain ⟨hidx, hos⟩ := hInv
  rw [play_none_eq]
  obtain ⟨data, hd⟩ : ∃ d, s.playlist[s.index]? = some d :=
    ⟨_, List.getElem?_eq_getElem hidx⟩
  constructor
  · rw [play_index s _ data hd, play_len]
    exact hidx
  · intro j hw hj hsome
    rw [play_index s _ data hd] at hj
    rw [howlAt_play_other s _ j hj] at hsome
    exact hos j hw hj hsome

lemma inv_pause (s : PState) (hInv : Inv s) : Inv (pause s).1 := by
  cases hd : s.playlist[s.index]? with
  | none => rw [pause_id_oob s hd]; exact hInv
  | some data =>
    cases hh : data.howl with
    | none => rw [pause_id_of_no_howl s data hd hh]; exact hInv
    | some h =>
      rw [pause_eq s data h hd hh]
      exact inv_set_current s _ hInv

lemma inv_seek (s : PState) (per : ℚ) (hInv : Inv s) : Inv (seek s per).1 := by
  cases hd : s.playlist[s.index]? with
  | none => rw [seek_id_oob s per hd]; exact hInv
  | some data =>
    cases hh : data.howl with
    | none => rw [seek_id_no_howl s per data hd hh]; exact hInv
    | some h =>
      cases hp : h.isPlaying with
      | false => rw [seek_id_not_playing s per data h hd hh hp]; exact hInv
      | true =>
        rw [seek_eq_play s per data h hd hh hp]
        exact inv_set_current s _ hInv

lemma markLoaded_oob (s : PState) (i : Nat) (d : ℚ) (hd : s.playlist[i]? = none) :
    markLoaded s i d = s := by
  simp [markLoaded, hd]

lemma markLoaded_no_howl (s : PState) (i : Nat) (d : ℚ) (t : Track)
    (hd : s.playlist[i]? = some t) (hh : t.howl = none) :
    markLoaded s i d = s := by
  simp [markLoaded, hd, hh]

lemma markLoaded_eq (s : PState) (i : Nat) (d : ℚ) (t : Track) (h : Howl)
    (hd : s.playlist[i]? = some t) (hh : t.howl = some h) :
    markLoaded s i d =
      { s with
          playlist := s.playlist.set i
            { t with howl := some { h with loaded := true, dur := d } } } := by
  simp [markLoaded, hd, hh]

lemma endAt_oob (s : PState) (i : Nat) (hd : s.playlist[i]? = none) :
    endAt s i = (s, []) := by
  simp [endAt, hd]

lemma endAt_no_howl (s : PState) (i : Nat) (t : Track)
    (hd : s.playlist[i]? = some t) (hh : t.howl = none) :
    endAt s i = (s, []) := by
  simp [endAt, hd, hh]

lemma endAt_not_playing (s : PState) (i : Nat) (t : Track) (h : Howl)
    (hd : s.playlist[i]? = some t) (hh : t.howl = some h) (hp : h.isPlaying = false) :
    endAt s i = (s, []) := by
  simp [endAt, hd, hh, hp]

lemma endAt_eq_skip (s : PState) (i : Nat) (t : Track) (h : Howl)
    (hd : s.playlist[i]? = some t) (hh : t.howl = some h) (hp : h.isPlaying = true) :
    endAt s i =
      skip { s with playlist := s.playlist.set i { t with howl := some h.doStop } } "next" := by
  simp [endAt, hd, hh, hp]

lemma inv_markLoaded (s : PState) (i : Nat) (d : ℚ) (hInv : Inv s) :
    Inv (markLoaded s i d) := by
  cases hd : s.playlist[i]? with
  | none => rw [markLoaded_oob s i d hd]; exact hInv
  | some t =>
    cases hh : t.howl with
    | none => rw [markLoaded_no_howl s i d t hd hh]; exact hInv
    | some h =>
      rw [markLoaded_eq s i d t h hd hh]
      obtain ⟨hidx, hos⟩ := hInv
      refine ⟨by simpa using hidx, ?_⟩
      intro j hw hj hsome
      rw [howlAt_eq] at hsome
      by_cases hji : j = i
      · subst hji
        have hlt : j < s.playlist.length := (List.getElem?_eq_some.mp hd).1
        rw [List.getElem?_set_eq_of_lt _ hlt] at hsome
        have hstop : h.status = HStatus.stopped :=
          hos j h hj (by simp [howlAt_eq, hd, hh])
        have hsome' : some ({ h with loaded := true, dur := d } : Howl) = some hw := hsome
        have hw_eq : hw = { h with loaded := true, dur := d } := (Option.some.inj hsome').symm
        rw [hw_eq]
        exact hstop
      · rw [List.getElem?_set_ne (Ne.symm hji)] at hsome
        exact hos j hw hj (by rw [howlAt_eq]; exact hsome)

lemma inv_endAt (s : PState) (i : Nat) (hInv : Inv s) : Inv (endAt s i).1 := by
  cases hd : s.playlist[i]? with
  | none => rw [endAt_oob s i hd]; exact hInv
  | some t =>
    cases hh : t.howl with
    | none => rw [endAt_no_howl s i t hd hh]; exact hInv
    | some h =>
      cases hp : h.isPlaying with
      | false => rw [endAt_not_playing s i t h hd hh hp]; exact hInv
      | true =>
        rw [endAt_eq_skip s i t h hd hh hp]
        have hji : i = s.index := by
          by_contra hne
          have hstop := hInv.2 i h hne (by simp [howlAt_eq, hd, hh])
          simp [Howl.isPlaying, hstop] at hp
        have hInv1 :
            Inv { s with playlist := s.playlist.set i { t with howl := some h.doStop } } := by
          rw [hji]
          exact inv_set_current s _ hInv
        exact inv_skip _ "next" hInv1

lemma inv_applyEv (s : PState) (e : Ev) (hv : evValid s e) (hInv : Inv s) :
    Inv (applyEv s e) := by
  cases e with
  | pressPlay => exact inv_play_current s hInv
  | pressPause => exact inv_pause s hInv
  | pressNext => exact inv_skip s "next" hInv
  | pressPrev => exact inv_skip s "prev" hInv
  | clickSong i => exact inv_skipTo s i hInv hv
  | setVolume v => exact ⟨hInv.1, hInv.2⟩
  | dragSeek p => exact inv_seek s p hInv
  | howlLoaded i d => exact inv_markLoaded s i d hInv
  | howlEnded i => exact inv_endAt s i hInv

lemma reachable_inv (pl : List Track) (s : PState) (hr : Reachable pl s) : Inv s := by
  induction hr with
  | init hne hclean =>
    refine ⟨hne, ?_⟩
    intro i h hne' hsome
    rw [howlAt_eq] at hsome
    cases hpl : (initState pl).playlist[i]? with
    | none => rw [hpl] at hsome; cases hsome
    | some t =>
      rw [hpl] at hsome
      have hmem : t ∈ pl := List.getElem?_mem hpl
      simp [hclean t hmem] at hsome
  | next s e hv _ ih => exact inv_applyEv s e hv ih

lemma skipTo_oob (s : PState) (i : Nat) (hd : s.playlist[s.index]? = none) :
    skipTo s i = play s (some i) := by
  simp [skipTo, hd]

lemma isSome_howlIn_set (pl : List Track) (k : Nat) (t' : Track) (i : Nat)
    (ht : t'.howl.isSome = true)
    (hsome : (pl[i]?.bind Track.howl).isSome = true) :
    ((pl.set k t')[i]?.bind Track.howl).isSome = true := by
  rw [List.getElem?_set]
  by_cases hik : k = i
  · rw [if_pos hik]
    have hlt : i < pl.length := by
      cases hpl : pl[i]? with
      | none => rw [hpl] at hsome; simp at hsome
      | some t => exact (List.getElem?_eq_some.mp hpl).1
    rw [if_pos (by rw [hik]; exact hlt)]
    simpa using ht
  · rw [if_neg hik]
    exact hsome

lemma isSome_howlAt_play (s : PState) (o : Option Nat) (i : Nat)
    (hsome : (howlAt s i).isSome = true) :
    (howlAt (play s o).1 i).isSome = true := by
  have he : play s o = play s (some (match o with | some n => n | none => s.index)) := by
    cases o <;> rfl
  rw [he]
  cases hd : s.playlist[(match o with | some n => n | none => s.index)]? with
  | none => rw [play_oob _ _ hd]; exact hsome
  | some data =>
    rw [play_eq _ _ data hd, howlAt_eq]
    rw [howlAt_eq] at hsome
    exact isSome_howlIn_set _ _ _ i (by simp) hsome

lemma isSome_howlAt_pause (s : PState) (i : Nat)
    (hsome : (howlAt s i).isSome = true) :
    (howlAt (pause s).1 i).isSome = true := by
  cases hd : s.playlist[s.index]? with
  | none => rw [pause_id_oob s hd]; exact hsome
  | some data =>
    cases hh : data.howl with
    | none => rw [pause_id_of_no_howl s data hd hh]; exact hsome
    | some h =>
      rw [pause_eq s data h hd hh, howlAt_eq]
      rw [howlAt_eq] at hsome
      exact isSome_howlIn_set _ _ _ i (by simp) hsome

lemma isSome_howlAt_skipTo (s : PState) (k i : Nat)
    (hsome : (howlAt s i).isSome = true) :
    (howlAt (skipTo s k).1 i).isSome = true := by
  cases hd : s.playlist[s.index]? with
  | none => rw [skipTo_oob s k hd]; exact isSome_howlAt_play s (some k) i hsome
  | some data =>
    cases hh : data.howl with
    | none =>
      rw [skipTo_eq_no_howl s k data hd hh]
      exact isSome_howlAt_play s (some k) i hsome
    | some h =>
      rw [skipTo_eq_stop s k data h hd hh]
      refine isSome_howlAt_play _ (some k) i ?_
      rw [howlAt_eq]
      rw [howlAt_eq] at hsome
      exact isSome_howlIn_set _ _ _ i (by simp) hsome

lemma isSome_howlAt_skip (s : PState) (d : String) (i : Nat)
    (hsome : (howlAt s i).isSome = true) :
    (howlAt (skip s d).1 i).isSome = true := by
  unfold skip
  exact isSome_howlAt_skipTo s _ i hsome

lemma isSome_howlAt_seek (s : PState) (per : ℚ) (i : Nat)
    (hsome : (howlAt s i).isSome = true) :
    (howlAt (seek s per).1 i).isSome = true := by
  cases hd : s.playlist[s.index]? with
  | none => rw [seek_id_oob s per hd]; exact hsome
  | some data =>
    cases hh : data.howl with
    | none => rw [seek_id_no_howl s per data hd hh]; exact hsome
    | some h =>
      cases hp : h.isPlaying with
      | false => rw [seek_id_not_playing s per data h hd hh hp]; exact hsome
      | true =>
        rw [seek_eq_play s per data h hd hh hp, howlAt_eq]
        rw [howlAt_eq] at hsome
        exact isSome_howlIn_set _ _ _ i (by simp) hsome

lemma isSome_howlAt_markLoaded (s : PState) (k : Nat) (d : ℚ) (i : Nat)
    (hsome : (howlAt s i).isSome = true) :
    (howlAt (markLoaded s k d) i).isSome = true := by
  cases hd : s.playlist[k]? with
  | none => rw [markLoaded_oob s k d hd]; exact hsome
  | some t =>
    cases hh : t.howl with
    | none => rw [markLoaded_no_howl s k d t hd hh]; exact hsome
    | some h =>
      rw [markLoaded_eq s k d t h hd hh, howlAt_eq]
      rw [howlAt_eq] at hsome
      exact isSome_howlIn_set _ _ _ i (by simp) hsome

lemma isSome_howlAt_endAt (s : PState) (k : Nat) (i : Nat)
    (hsome : (howlAt s i).isSome = true) :
    (howlAt (endAt s k).1 i).isSome = true := by
  cases hd : s.playlist[k]? with
  | none => rw [endAt_oob s k hd]; exact hsome
  | some t =>
    cases hh : t.howl with
    | none => rw [endAt_no_howl s k t hd hh]; exact hsome
    | some h =>
      cases hp : h.isPlaying with
      | false => rw [endAt_not_playing s k t h hd hh hp]; exact hsome
      | true =>
        rw [endAt_eq_skip s k t h hd hh hp]
        refine isSome_howlAt_skip _ "next" i ?_
        rw [howlAt_eq]
        rw [howlAt_eq] at hsome
        exact isSome_howlIn_set _ _ _ i (by simp) hsome

lemma isSome_howlAt_applyEv (s : PState) (e : Ev) (i : Nat)
    (hsome : (howlAt s i).isSome = true) :
    (howlAt (applyEv s e) i).isSome = true := by
  cases e with
  | pressPlay => exact isSome_howlAt_play s none i hsome
  | pressPause => exact isSome_howlAt_pause s i hsome
  | pressNext => exact isSome_howlAt_skip s "next" i hsome
  | pressPrev => exact isSome_howlAt_skip s "prev" i hsome
  | clickSong k => exact isSome_howlAt_skipTo s k i hsome
  | setVolume v => exact hsome
  | dragSeek p => exact isSome_howlAt_seek s p i hsome
  | howlLoaded k d => exact isSome_howlAt_markLoaded s k d i hsome
  | howlEnded k => exact isSome_howlAt_endAt s k i hsome

/-! ### Claim theorems -/

/-- Claim C1: from every reachable player state, for every valid index,
`skipTo(index)` leaves the handle of the target track in the playing-or-loading
state and every existing handle of the other tracks stopped (hence at most one
handle is playing-or-loading), and it does so by first stopping the handle
at the old current index (when one exists) and then issuing play on the
target. -/
theorem skipTo_single_active (pl : List Track) (s : PState) (hr : Reachable pl s)
    (i : Nat) (hi : i < s.playlist.length) :
    (∃ hw, howlAt (skipTo s i).1 i = some hw ∧ hw.status = HStatus.playing) ∧
    (∀ j hw, j ≠ i → howlAt (skipTo s i).1 j = some hw → hw.status = HStatus.stopped) ∧
    (howlAt s s.index = none → (skipTo s i).2 = [Act.howlPlay i]) ∧
    (∀ h0, howlAt s s.index = some h0 →
      (skipTo s i).2 = [Act.howlStop s.index, Act.howlPlay i]) := by
  have hInv := reachable_inv pl s hr
  have post := skipTo_post s i hInv.1 hInv.2 hi
  exact ⟨post.2.2.1, post.2.2.2.1, post.2.2.2.2.1, post.2.2.2.2.2⟩

/-- Witness for C1: at startup, `skipTo(0)` leaves the handle of track 0
playing-or-loading. -/
theorem skipTo_single_active_witness :
    ∃ hw, howlAt (skipTo (initState neudawnPlaylist) 0).1 0 = some hw ∧
      hw.status = HStatus.playing :=
  (skipTo_single_active neudawnPlaylist (initState neudawnPlaylist)
    (Reachable.init (by decide) (by decide)) 0 (by decide)).1

/-- Claim C2: with a valid current index, `skip("next")` targets
`(currentIndex + 1) mod length` and `skip("prev")` targets
`(currentIndex - 1 + length) mod length` (written `(currentIndex +
length - 1) mod length` over naturals); both delegate to `skipTo` with
that target, `skip("next")` from the last index wraps to `0`, and
`skip("prev")` from index `0` wraps to the last index. -/
theorem skip_wraparound (s : PState) (hidx : s.index < s.playlist.length) :
    skipTarget s "next" = (s.index + 1) % s.playlist.length ∧
    skipTarget s "prev" = (s.index + s.playlist.length - 1) % s.playlist.length ∧
    skip s "next" = skipTo s ((s.index + 1) % s.playlist.length) ∧
    skip s "prev" = skipTo s ((s.index + s.playlist.length - 1) % s.playlist.length) ∧
    (s.index = s.playlist.length - 1 → skipTarget s "next" = 0) ∧
    (s.index = 0 → skipTarget s "prev" = s.playlist.length - 1) := by
  have hnext : skipTarget s "next" = (s.index + 1) % s.playlist.length := by
    unfold skipTarget
    rw [if_neg (by decide : ¬("next" = "prev"))]
    by_cases hge : s.index + 1 ≥ s.playlist.length
    · rw [if_pos hge]
      have hlen : s.index + 1 = s.playlist.length := by omega
      rw [hlen, Nat.mod_self]
    · rw [if_neg hge]
      exact (Nat.mod_eq_of_lt (show s.index + 1 < s.playlist.length by omega)).symm
  have hprev : skipTarget s "prev" =
      (s.index + s.playlist.length - 1) % s.playlist.length := by
    unfold skipTarget
    rw [if_pos rfl]
    by_cases h0 : s.index = 0
    · rw [if_pos h0, h0, Nat.zero_add]
      exact (Nat.mod_eq_of_lt (by omega)).symm
    · rw [if_neg h0]
      have harith : s.index + s.playlist.length - 1 = (s.index - 1) + s.playlist.length := by
        omega
      rw [harith, Nat.add_mod_right]
      exact (Nat.mod_eq_of_lt (show s.index - 1 < s.playlist.length by omega)).symm
  refine ⟨hnext, hprev, ?_, ?_, ?_, ?_⟩
  · unfold skip; rw [hnext]
  · unfold skip; rw [hprev]
  · intro hlast
    rw [hnext]
    have hlen : s.index + 1 = s.playlist.length := by omega
    rw [hlen, Nat.mod_self]
  · intro h0
    rw [hprev, h0, Nat.zero_add]
    exact Nat.mod_eq_of_lt (by omega)

/-- Witness for C2: at startup (index 0, length 20), `skip("prev")`
targets the last index. -/
theorem skip_wraparound_witness :
    skipTarget (initState neudawnPlaylist) "prev" =
      (initState neudawnPlaylist).playlist.length - 1 :=
  (skip_wraparound (initState neudawnPlaylist) (by decide)).2.2.2.2.2 rfl

/-- Claim C3: `seek(fraction)` changes nothing — no seek command, no
state change — when the handle of the current track is absent or does not
report playing; when the current handle reports playing, the position
seeked to is `fraction × duration` (the source computes
`sound.duration() * per`). -/
theorem seek_noop_when_not_playing (s : PState) (per : ℚ) :
    (s.playlist[s.index]? = none → seek s per = (s, [])) ∧
    (∀ data, s.playlist[s.index]? = some data → data.howl = none →
      seek s per = (s, [])) ∧
    (∀ data h, s.playlist[s.index]? = some data → data.howl = some h →
      h.isPlaying = false → seek s per = (s, [])) ∧
    (∀ data h, s.playlist[s.index]? = some data → data.howl = some h →
      h.isPlaying = true → (seek s per).2 = [Act.howlSeek s.index (h.dur * per)]) := by
  refine ⟨seek_id_oob s per,
    fun data hd hh => seek_id_no_howl s per data hd hh,
    fun data h hd hh hp => seek_id_not_playing s per data h hd hh hp,
    fun data h hd hh hp => ?_⟩
  rw [seek_eq_play s per data h hd hh hp]

/-- Witness for C3: at startup the current track has no handle, so a
seek to the middle changes nothing. -/
theorem seek_noop_when_not_playing_witness :
    seek (initState neudawnPlaylist) (1 / 2) = (initState neudawnPlaylist, []) :=
  (seek_noop_when_not_playing (initState neudawnPlaylist) (1 / 2)).2.1
    (mkTrack "I" "1" "Abby Yankle" "Julia Liller" "Jessica Maples" "" "01 - ND13")
    rfl rfl

/-- Claim C4, counterexample: the claimed interval `[0, W×0.95 − 25]`
for the slider-button offset fails at viewport width `100` and level
`0`, where the code places the button at `100×0.05 − 25 = −20`. -/
theorem volume_slider_counterexample :
    volumeSliderLeft 0 100 = -20 ∧
    ¬ (0 ≤ volumeSliderLeft 0 100 ∧
        volumeSliderLeft 0 100 ≤ 100 * (95 / 100) - 25) := by
  constructor
  · norm_num [volumeSliderLeft, volumeBarWidth]
  · norm_num [volumeSliderLeft, volumeBarWidth]

/-- Claim C4 as amended: for every level in `[0,1]`, `volume(level)`
sets the provider-scope output volume to the level and the slider fill
width to `level × 90` percent; and whenever the viewport is at least
`500` pixels wide (so that `W×0.05 ≥ 25`), the slider-button offset
`W×0.9×level + W×0.05 − 25` lies within `[0, W×0.95 − 25]` — in
particular at levels `0` and `1`. -/
theorem volume_sets_level_and_slider (s : PState) (val W : ℚ)
    (h0 : 0 ≤ val) (h1 : val ≤ 1) (hW : 500 ≤ W) :
    (volume s val).1.globalVol = val ∧
    (volume s val).2 = [Act.howlerVolume val] ∧
    volumeBarFullPercent val = val * 90 ∧
    0 ≤ volumeSliderLeft val W ∧
    volumeSliderLeft val W ≤ W * (95 / 100) - 25 := by
  have hW0 : (0 : ℚ) ≤ W := by linarith
  have hv0 : 0 ≤ W * val := mul_nonneg hW0 h0
  have hv1 : 0 ≤ W * (1 - val) := mul_nonneg hW0 (by linarith)
  refine ⟨rfl, rfl, ?_, ?_, ?_⟩
  · unfold volumeBarFullPercent volumeBarWidth; ring
  · unfold volumeSliderLeft volumeBarWidth; nlinarith
  · unfold volumeSliderLeft volumeBarWidth; nlinarith

/-- Witness for C4 (amended): at level `0` and viewport width `500` the
offset lies within the interval. -/
theorem volume_sets_level_and_slider_witness :
    0 ≤ volumeSliderLeft 0 500 ∧ volumeSliderLeft 0 500 ≤ 500 * (95 / 100) - 25 :=
  ⟨(volume_sets_level_and_slider (initState neudawnPlaylist) 0 500
      (by norm_num) (by norm_num) (by norm_num)).2.2.2.1,
   (volume_sets_level_and_slider (initState neudawnPlaylist) 0 500
      (by norm_num) (by norm_num) (by norm_num)).2.2.2.2⟩

/-- Claim C5: `formatTime` renders a non-negative whole number of
seconds as unpadded minutes `secs / 60`, a colon, and the remaining
seconds zero-padded to two digits; in particular `formatTime 0 = "0:00"`,
`formatTime 65 = "1:05"` and `formatTime 3599 = "59:59"`. -/
theorem formatTime_spec (secs : Nat) :
    formatTime secs = toString (secs / 60) ++ ":" ++ pad2 (secs % 60) ∧
    formatTime 0 = "0:00" ∧ formatTime 65 = "1:05" ∧ formatTime 3599 = "59:59" := by
  refine ⟨?_, by decide, by decide, by decide⟩
  simp only [formatTime, pad2]
  have hm : secs - secs / 60 * 60 = secs % 60 := by omega
  rw [hm]
  by_cases hlt : secs % 60 < 10
  · rw [if_pos hlt, if_pos hlt, String.append_assoc]
  · rw [if_neg hlt, if_neg hlt]
    rw [String.append_assoc]
    rfl

/-- Claim C6: `play` with the index omitted resolves the target to the
current index; for every valid index, after `play(index)` the current
index equals the target; and `play` issues the play command of the handle
whether or not the handle already existed (the command is emitted
unconditionally). -/
theorem play_resolves_index (s : PState) :
    play s none = play s (some s.index) ∧
    (∀ i, i < s.playlist.length →
      (play s (some i)).1.index = i ∧ (play s (some i)).2 = [Act.howlPlay i]) := by
  refine ⟨rfl, fun i hi => ?_⟩
  obtain ⟨data, hd⟩ : ∃ d, s.playlist[i]? = some d := ⟨_, List.getElem?_eq_getElem hi⟩
  rw [play_eq s i data hd]
  exact ⟨rfl, rfl⟩

/-- Witness for C6: playing track 3 at startup moves the current index
to 3 and issues exactly one play command. -/
theorem play_resolves_index_witness :
    (play (initState neudawnPlaylist) (some 3)).1.index = 3 ∧
    (play (initState neudawnPlaylist) (some 3)).2 = [Act.howlPlay 3] :=
  (play_resolves_index (initState neudawnPlaylist)).2 3 (by decide)

/-- Claim C7: the handle of a track is created at most once and persists: no
event of the player ever removes an existing handle (skips only stop
it); `play` on a track whose handle exists reuses that handle, changing
only its status to playing; `play` on a track without a handle
constructs a fresh one and plays it. -/
theorem howl_created_once_persists :
    (∀ (s : PState) (e : Ev) (i : Nat),
      (howlAt s i).isSome = true → (howlAt (applyEv s e) i).isSome = true) ∧
    (∀ (s : PState) (i : Nat) (data : Track) (h : Howl),
      s.playlist[i]? = some data → data.howl = some h →
      (play s (some i)).1.playlist[i]? = some { data with howl := some h.doPlay }) ∧
    (∀ (s : PState) (i : Nat) (data : Track),
      s.playlist[i]? = some data → data.howl = none →
      (play s (some i)).1.playlist[i]? = some { data with howl := some newHowl.doPlay }) := by
  refine ⟨fun s e i hsome => isSome_howlAt_applyEv s e i hsome, ?_, ?_⟩
  · intro s i data h hd hh
    have hlt : i < s.playlist.length := (List.getElem?_eq_some.mp hd).1
    rw [play_eq s i data hd]
    show (s.playlist.set i _)[i]? = _
    rw [List.getElem?_set_eq_of_lt _ hlt, hh]
    rfl
  · intro s i data hd hh
    have hlt : i < s.playlist.length := (List.getElem?_eq_some.mp hd).1
    rw [play_eq s i data hd]
    show (s.playlist.set i _)[i]? = _
    rw [List.getElem?_set_eq_of_lt _ hlt, hh]
    rfl

/-- Witness for C7: a handle that exists survives a pause event. -/
theorem howl_created_once_persists_witness :
    (howlAt
      (applyEv
        { playlist := [{ mkTrack "t" "" "" "" "" "" "f" with howl := some newHowl }],
          index := 0, globalVol := 1 }
        Ev.pressPause) 0).isSome = true :=
  howl_created_once_persists.1
    { playlist := [{ mkTrack "t" "" "" "" "" "" "f" with howl := some newHowl }],
      index := 0, globalVol := 1 }
    Ev.pressPause 0 (by decide)

/-- Claim C8: given the handle of the current track, `step()` shows the
formatted rounded playback position (defaulting to `0` when the
position is unavailable), sets the progress width to
`position/duration × 100` percent (`0` when the duration is unknown,
i.e. still `0`), and schedules another animation frame if and only if
the handle reports playing. -/
theorem step_spec (h : Howl) :
    (step h).timerText = formatTime (jsRound (h.pos.getD 0)) ∧
    (h.pos = none → (step h).timerText = formatTime (jsRound 0)) ∧
    (h.dur ≠ 0 → (step h).progressPercent = h.pos.getD 0 / h.dur * 100) ∧
    (h.dur = 0 → (step h).progressPercent = 0) ∧
    ((step h).reschedule = true ↔ h.isPlaying = true) := by
  refine ⟨rfl, ?_, fun _ => rfl, ?_, Iff.rfl⟩
  · intro hp
    show formatTime (jsRound (h.pos.getD 0)) = _
    rw [hp]
    rfl
  · intro hd
    show h.pos.getD 0 / h.dur * 100 = 0
    rw [hd, div_zero, zero_mul]

/-- Witness for C8: a playing handle thirty seconds into a minute-long
track reports fifty percent progress. -/
theorem step_spec_witness :
    (step { status := HStatus.playing, loaded := true, pos := some 30, dur := 60 }).progressPercent
      = (30 : ℚ) / 60 * 100 :=
  (step_spec { status := HStatus.playing, loaded := true, pos := some 30, dur := 60 }).2.2.1
    (by norm_num)

/-- Claim C9: in every reachable state — the initial one and after any
sequence of UI or callback events — the current index is a valid
position in the playlist, so it refers to an actual track descriptor. -/
theorem currentIndex_always_valid (pl : List Track) (s : PState) (hr : Reachable pl s) :
    s.index < s.playlist.length ∧ ∃ t, s.playlist[s.index]? = some t := by
  have hInv := reachable_inv pl s hr
  exact ⟨hInv.1, ⟨_, List.getElem?_eq_getElem hInv.1⟩⟩

/-- Witness for C9: the startup state has a valid current index. -/
theorem currentIndex_always_valid_witness :
    (initState neudawnPlaylist).index < (initState neudawnPlaylist).playlist.length :=
  (currentIndex_always_valid neudawnPlaylist (initState neudawnPlaylist)
    (Reachable.init (by decide) (by decide))).1

/-- Claim C10: every direction string other than exactly `"prev"` makes
`skip` behave as `skip("next")`; only `"prev"` selects the
previous-track computation. -/
theorem skip_other_strings_act_as_next (s : PState) (d : String) (hne : d ≠ "prev") :
    skip s d = skip s "next" := by
  unfold skip skipTarget
  rw [if_neg hne, if_neg (by decide : ¬("next" = "prev"))]

/-- Witness for C10: the string `"shuffle"` behaves as `"next"`. -/
theorem skip_other_strings_act_as_next_witness :
    skip (initState neudawnPlaylist) "shuffle" = skip (initState neudawnPlaylist) "next" :=
  skip_other_strings_act_as_next (initState neudawnPlaylist) "shuffle" (by decide)

end NeudawnPlayer
